import Mathlib

/-!
Verification of the single-block buffered stream adapter `OffsetScsiDevice`
(`src/buf_scsi.rs`) of nx-fatdrive.

The Rust code is shallowly embedded as explicit state passing over the
structure `OffsetScsiDevice`.  `Option` models Rust panics: `none` means the
operation panics (out-of-range slice indexing, `unimplemented!()`, `usize`
underflow); `some` is normal completion.  A ghost field `log` records the
device read/write commands issued, so that claims about device interaction
("exactly one device write", "seek touches no device") can be stated.

Bytes are modelled as `Nat`: the code only ever copies and compares bytes,
so the embedding is value-agnostic.
-/

set_option maxHeartbeats 1000000
set_option maxRecDepth 4000

namespace NxFatdrive

/-- A device command, recorded in the ghost log in the order issued.
`read a` is a call of the device's read at byte address `a`
(`self.device.read(block_idx, ...)`), `write a d` a call of the device's
write at byte address `a` with payload `d` (`self.device.write(raw_idx, ...)`). -/
inductive DevEvent where
  | read : Nat → DevEvent
  | write : Nat → List Nat → DevEvent
deriving DecidableEq

/-- Modelled from the spec: the external block-device capability consumed by the
stream (the `scsi` crate's `ScsiBlockDevice`, out of scope of the repository).
Per spec section 6 it exposes a fixed `block_size` and whole-block read/write at
block-aligned addresses; `nblocks`/`data` model the medium contents. -/
structure ScsiBlockDevice where
  block_size : Nat
  nblocks : Nat
  data : Nat → List Nat

/-- Modelled from the spec: a device read at byte address `addr` yields the
containing block's bytes.  Past the end of the medium the device "reports no
more blocks" (spec section 8): the read fills nothing, which is how "0 signals
end of medium" (spec section 6) reaches the stream. -/
def ScsiBlockDevice.readAt (d : ScsiBlockDevice) (addr : Nat) : List Nat :=
  if addr / d.block_size < d.nblocks then d.data (addr / d.block_size) else []

/-- Modelled from the spec: a device write at byte address `addr` replaces the
containing block's bytes with the payload. -/
def ScsiBlockDevice.writeAt (d : ScsiBlockDevice) (addr : Nat) (buf : List Nat) :
    ScsiBlockDevice :=
  { d with data := fun n => if n = addr / d.block_size then buf else d.data n }

/-- The stream state of `struct OffsetScsiDevice` (buf_scsi.rs lines 8-15).
`block_buffer` models `VecNewtype` (repo code not under src/, modelled from
spec sections 3 and 9): a container that is logically empty (`[]`, no resident
block) or holds one block, with a cheap logical clear.  `log` is the ghost
command log (not a Rust field). -/
structure OffsetScsiDevice where
  device : ScsiBlockDevice
  block_buffer : List Nat
  partition_start : Nat
  partition_idx : Nat
  loaded_block_number : Nat
  needs_flush : Bool
  log : List DevEvent

/-- `OffsetScsiDevice::new` (lines 24-38): empty buffer with (fake) capacity
one block, cursor 0, loaded block number 0, clean. -/
def OffsetScsiDevice.new (device : ScsiBlockDevice) (partition_start : Nat) :
    OffsetScsiDevice :=
  { device := device
    block_buffer := []
    partition_start := partition_start
    partition_idx := 0
    loaded_block_number := 0
    needs_flush := false
    log := [] }

/-- `raw_idx` (lines 40-43): absolute byte position of the cursor. -/
def OffsetScsiDevice.raw_idx (s : OffsetScsiDevice) : Nat :=
  s.partition_start + s.partition_idx

/-- `buffered_block_raw_idx` (lines 45-48): byte address of the start of the
block the buffer mirrors. -/
def OffsetScsiDevice.buffered_block_raw_idx (s : OffsetScsiDevice) : Nat :=
  s.device.block_size * s.loaded_block_number

/-- `cur_block_raw_idx` (lines 50-55): byte address of the start of the block
containing the cursor. -/
def OffsetScsiDevice.cur_block_raw_idx (s : OffsetScsiDevice) : Nat :=
  s.raw_idx - s.raw_idx % s.device.block_size

/-- `cur_block_number` (lines 57-60). -/
def OffsetScsiDevice.cur_block_number (s : OffsetScsiDevice) : Nat :=
  s.cur_block_raw_idx / s.device.block_size

/-- `offset_from_cur_block` (lines 62-65): intra-block offset of the cursor. -/
def OffsetScsiDevice.offset_from_cur_block (s : OffsetScsiDevice) : Nat :=
  s.raw_idx - s.cur_block_raw_idx

/-- `Write::flush` (lines 142-155): no-op when clean; otherwise one device
write of the buffer at the buffered block's start address, then clear the
dirty flag.  The model device write does not fail, so the `io::Result` is
always ok and `flush` returns the new state. -/
def OffsetScsiDevice.flush (s : OffsetScsiDevice) : OffsetScsiDevice :=
  if s.needs_flush then
    { s with
      device := s.device.writeAt s.buffered_block_raw_idx s.block_buffer
      needs_flush := false
      log := s.log ++ [DevEvent.write s.buffered_block_raw_idx s.block_buffer] }
  else s

/-- First half of `BufRead::fill_buf` (lines 70-75): if the cursor's block is
not the loaded one, flush and then logically clear the buffer. -/
def OffsetScsiDevice.fill_step1 (s : OffsetScsiDevice) : OffsetScsiDevice :=
  if s.cur_block_number ≠ s.loaded_block_number then
    { s.flush with block_buffer := [] }
  else s

/-- Second half of `BufRead::fill_buf` (lines 76-92): if the buffer is empty,
issue one device read at the cursor's block start and record the cursor's
block number as loaded. -/
def OffsetScsiDevice.fill_step2 (s : OffsetScsiDevice) : OffsetScsiDevice :=
  if s.block_buffer = [] then
    { s with
      block_buffer := s.device.readAt s.cur_block_raw_idx
      loaded_block_number := s.cur_block_number
      log := s.log ++ [DevEvent.read s.cur_block_raw_idx] }
  else s

/-- `BufRead::fill_buf` (lines 69-94).  The returned slice is
`&block_buffer[offset_from_cur_block..]`; in Rust that indexing panics when
the offset exceeds the buffer's length, modelled by `none`. -/
def OffsetScsiDevice.fill_buf (s : OffsetScsiDevice) :
    Option (List Nat × OffsetScsiDevice) :=
  let s2 := s.fill_step1.fill_step2
  if s2.offset_from_cur_block ≤ s2.block_buffer.length then
    some (s2.block_buffer.drop s2.offset_from_cur_block, s2)
  else none

/-- `BufRead::consume` (lines 96-98): advance the cursor. -/
def OffsetScsiDevice.consume (s : OffsetScsiDevice) (amt : Nat) : OffsetScsiDevice :=
  { s with partition_idx := s.partition_idx + amt }

/-- The loop of `Read::read` (lines 105-117): one byte per `fill_buf`, until
the output is full or the slice comes back empty.  `remaining` counts the
output bytes still wanted; the bytes read so far are accumulated in `acc`. -/
def OffsetScsiDevice.read_loop :
    OffsetScsiDevice → Nat → List Nat → Option (List Nat × OffsetScsiDevice)
  | s, 0, acc => some (acc, s)
  | s, remaining + 1, acc =>
    match s.fill_buf with
    | none => none
    | some (buff, s1) =>
      match buff with
      | [] => some (acc, s1)
      | b :: _ => OffsetScsiDevice.read_loop (s1.consume 1) remaining (acc ++ [b])

/-- `Read::read` (lines 101-120) for an output buffer of `n` bytes: returns
the bytes copied (the Rust return value is their count). -/
def OffsetScsiDevice.read (s : OffsetScsiDevice) (n : Nat) :
    Option (List Nat × OffsetScsiDevice) :=
  OffsetScsiDevice.read_loop s n []

/-- The loop of `Write::write` (lines 124-138): per byte, `fill_buf`, stop if
the buffer is empty, else compare the buffered byte at the intra-block offset
with the input byte, overwrite and set the dirty flag only when they differ,
then advance.  Indexing `block_buffer.inner[block_offset]` out of range
panics in Rust, modelled by `none`. -/
def OffsetScsiDevice.write_loop :
    OffsetScsiDevice → List Nat → Nat → Option (Nat × OffsetScsiDevice)
  | s, [], written => some (written, s)
  | s, b :: rest, written =>
    match s.fill_buf with
    | none => none
    | some (_, s1) =>
      if s1.block_buffer = [] then some (written, s1)
      else if s1.offset_from_cur_block < s1.block_buffer.length then
        let s2 :=
          if s1.block_buffer.getD s1.offset_from_cur_block 0 ≠ b then
            { s1 with
              block_buffer := s1.block_buffer.set s1.offset_from_cur_block b
              needs_flush := true }
          else s1
        OffsetScsiDevice.write_loop (s2.consume 1) rest (written + 1)
      else none

/-- `Write::write` (lines 123-140): returns the number of input bytes copied. -/
def OffsetScsiDevice.write (s : OffsetScsiDevice) (to_write : List Nat) :
    Option (Nat × OffsetScsiDevice) :=
  OffsetScsiDevice.write_loop s to_write 0

/-- `std::io::SeekFrom`; `fromEnd` stands for `SeekFrom::End`. -/
inductive SeekFrom where
  | start : Nat → SeekFrom
  | current : Int → SeekFrom
  | fromEnd : Int → SeekFrom

/-- `Seek::seek` (lines 157-177).  `Start`: set the cursor.  `Current`: for a
negative offset the code computes `partition_idx - off.abs()` with unchecked
`usize` subtraction, which panics on underflow (debug builds; release builds
wrap), modelled by `none`; otherwise add.  Any other variant hits
`unimplemented!()`, a panic, modelled by `none`. -/
def OffsetScsiDevice.seek (s : OffsetScsiDevice) :
    SeekFrom → Option (Nat × OffsetScsiDevice)
  | SeekFrom.start absr => some (absr, { s with partition_idx := absr })
  | SeekFrom.current off =>
    if off < 0 then
      if off.natAbs ≤ s.partition_idx then
        some (s.partition_idx - off.natAbs,
          { s with partition_idx := s.partition_idx - off.natAbs })
      else none
    else
      some (s.partition_idx + off.natAbs,
        { s with partition_idx := s.partition_idx + off.natAbs })
  | SeekFrom.fromEnd _ => none

/-- `Drop::drop` (lines 17-21): one call of `flush`, its `io::Result`
discarded (`self.flush();`), so the disposal path exposes no error. -/
def OffsetScsiDevice.drop (s : OffsetScsiDevice) : OffsetScsiDevice :=
  s.flush

/-- Well-formedness of a stream state: positive block size, every in-range
device block is block-sized, the buffer is logically empty or holds exactly
one block (spec section 3), a dirty buffer is non-empty, and a clean
non-empty buffer mirrors the device's copy of the loaded block. -/
structure WF (s : OffsetScsiDevice) : Prop where
  bs_pos : 0 < s.device.block_size
  blocks_len : ∀ n, n < s.device.nblocks → (s.device.data n).length = s.device.block_size
  buf_len : s.block_buffer = [] ∨ s.block_buffer.length = s.device.block_size
  dirty_nonempty : s.needs_flush = true → s.block_buffer ≠ []
  coherent : s.needs_flush = false →
    s.block_buffer = [] ∨ s.block_buffer = s.device.data s.loaded_block_number

/-- The byte the partition logically holds at absolute address `addr`: the
buffered copy if `addr` falls in the resident block, the device's copy
otherwise. -/
def effByte (s : OffsetScsiDevice) (addr : Nat) : Nat :=
  if s.block_buffer ≠ [] ∧ addr / s.device.block_size = s.loaded_block_number then
    s.block_buffer.getD (addr % s.device.block_size) 0
  else (s.device.data (addr / s.device.block_size)).getD (addr % s.device.block_size) 0

/-- An operation optionally interposed between the write and the re-read of
the round-trip sequence: nothing, an explicit `flush()`, or a visit to
another partition offset (seek there and trigger a buffer fill), which forces
a block-boundary-crossing flush-and-reload when that offset lies in another
block. -/
inductive Interlude where
  | nothing
  | doFlush
  | evict (off2 : Nat)

/-- Run an interlude. -/
def runInterlude (s : OffsetScsiDevice) : Interlude → Option OffsetScsiDevice
  | Interlude.nothing => some s
  | Interlude.doFlush => some s.flush
  | Interlude.evict off2 =>
    match s.seek (SeekFrom.start off2) with
    | none => none
    | some (_, s1) =>
      match s1.fill_buf with
      | none => none
      | some (_, s2) => some s2

/-- The interlude stays on the medium: a visited offset must lie in an
in-range block of a partition starting at `ps` on a device with block size
`bs` and `nb` blocks. -/
def Interlude.ok (ps bs nb : Nat) : Interlude → Prop
  | Interlude.evict off2 => (ps + off2) / bs < nb
  | _ => True

/-- The round-trip sequence of spec section 8: `seek(offset); write([value]);
seek(offset); read(1 byte)`, with an optional flush or block-visiting
interlude between the write and the re-read.  Returns the bytes the final
read yields. -/
def roundTrip (s : OffsetScsiDevice) (off v : Nat) (itl : Interlude) :
    Option (List Nat) := do
  let (_, s1) ← s.seek (SeekFrom.start off)
  let (_, s2) ← s1.write [v]
  let s3 ← runInterlude s2 itl
  let (_, s4) ← s3.seek (SeekFrom.start off)
  let (bytes, _) ← s4.read 1
  pure bytes

/-- The invariant of claim C9: whenever the dirty flag is set, the block
buffer holds a resident block. -/
def dirtyInv (s : OffsetScsiDevice) : Prop :=
  s.needs_flush = true → s.block_buffer ≠ []

/-- One operation of the stream, as a transition relation over states:
buffer fill, read, write, flush, seek, consume, or disposal. -/
inductive Step : OffsetScsiDevice → OffsetScsiDevice → Prop where
  | fill (s : OffsetScsiDevice) (sl : List Nat) (s' : OffsetScsiDevice)
      (h : s.fill_buf = some (sl, s')) : Step s s'
  | rd (s : OffsetScsiDevice) (n : Nat) (r : List Nat) (s' : OffsetScsiDevice)
      (h : s.read n = some (r, s')) : Step s s'
  | wr (s : OffsetScsiDevice) (bytes : List Nat) (k : Nat) (s' : OffsetScsiDevice)
      (h : s.write bytes = some (k, s')) : Step s s'
  | fl (s : OffsetScsiDevice) : Step s s.flush
  | sk (s : OffsetScsiDevice) (pos : SeekFrom) (r : Nat) (s' : OffsetScsiDevice)
      (h : s.seek pos = some (r, s')) : Step s s'
  | cns (s : OffsetScsiDevice) (n : Nat) : Step s (s.consume n)
  | dr (s : OffsetScsiDevice) : Step s s.drop

/-- A device write command shaped like a flush: a whole-block payload at a
block-aligned address.  Read commands satisfy it vacuously. -/
def flushWriteShaped (bs : Nat) (e : DevEvent) : Prop :=
  ∀ a d, e = DevEvent.write a d → d.length = bs ∧ a % bs = 0

/-- A small concrete device: block size 4, 4 blocks, block `n` holding four
bytes of value `n`. -/
def dev0 : ScsiBlockDevice :=
  { block_size := 4, nblocks := 4, data := fun n => List.replicate 4 n }

/-- A fresh stream over `dev0` with the partition starting at byte 8 (block 2). -/
def state0 : OffsetScsiDevice := OffsetScsiDevice.new dev0 8

/-- A stream with a dirty buffered block 2 and the cursor moved into block 3. -/
def stateC2 : OffsetScsiDevice :=
  { device := dev0
    block_buffer := [7, 7, 7, 7]
    partition_start := 8
    partition_idx := 4
    loaded_block_number := 2
    needs_flush := true
    log := [] }

/-- A stream whose dirty buffer of block 0 differs from the device's copy at
offset 0 while agreeing at offset 1; the cursor sits at offset 1. -/
def stateC5 : OffsetScsiDevice :=
  { device := { block_size := 4, nblocks := 1, data := fun _ => [7, 9, 9, 9] }
    block_buffer := [9, 9, 9, 9]
    partition_start := 0
    partition_idx := 1
    loaded_block_number := 0
    needs_flush := true
    log := [] }

/-- A clean stream with block 2 resident and the cursor at partition offset 1. -/
def stateC5w : OffsetScsiDevice :=
  { device := dev0
    block_buffer := [2, 2, 2, 2]
    partition_start := 8
    partition_idx := 1
    loaded_block_number := 2
    needs_flush := false
    log := [] }

/-- A clean stream on a one-block device with the cursor at byte 6: inside
block 1, which is past the end of the medium, at intra-block offset 2. -/
def stateC6 : OffsetScsiDevice :=
  { device := { block_size := 4, nblocks := 1, data := fun _ => [7, 7, 7, 7] }
    block_buffer := []
    partition_start := 0
    partition_idx := 6
    loaded_block_number := 0
    needs_flush := false
    log := [] }

/-- Like `stateC6` but with the cursor at byte 4: past the end of the medium,
at a block boundary (intra-block offset 0). -/
def stateC6w : OffsetScsiDevice := { stateC6 with partition_idx := 4 }

namespace OffsetScsiDevice

theorem cur_block_raw_idx_eq (s : OffsetScsiDevice) :
    s.cur_block_raw_idx = s.device.block_size * (s.raw_idx / s.device.block_size) := by
  unfold cur_block_raw_idx
  exact Nat.sub_eq_of_eq_add (Nat.div_add_mod _ _).symm

theorem cur_block_number_eq (s : OffsetScsiDevice) :
    s.cur_block_number = s.raw_idx / s.device.block_size := by
  unfold cur_block_number
  rw [cur_block_raw_idx_eq]
  rcases Nat.eq_zero_or_pos s.device.block_size with h | h
  · simp [h]
  · exact Nat.mul_div_cancel_left _ h

theorem offset_from_cur_block_eq (s : OffsetScsiDevice) :
    s.offset_from_cur_block = s.raw_idx % s.device.block_size := by
  unfold offset_from_cur_block cur_block_raw_idx
  exact Nat.sub_sub_self (Nat.mod_le _ _)

theorem flush_clean {s : OffsetScsiDevice} (h : s.needs_flush = false) : s.flush = s := by
  unfold flush
  simp [h]

theorem flush_dirty {s : OffsetScsiDevice} (h : s.needs_flush = true) :
    s.flush = { s with
      device := s.device.writeAt s.buffered_block_raw_idx s.block_buffer
      needs_flush := false
      log := s.log ++ [DevEvent.write s.buffered_block_raw_idx s.block_buffer] } := by
  unfold flush
  simp [h]

theorem flush_block_buffer (s : OffsetScsiDevice) : s.flush.block_buffer = s.block_buffer := by
  unfold flush; split <;> rfl

theorem flush_partition_start (s : OffsetScsiDevice) :
    s.flush.partition_start = s.partition_start := by
  unfold flush; split <;> rfl

theorem flush_partition_idx (s : OffsetScsiDevice) :
    s.flush.partition_idx = s.partition_idx := by
  unfold flush; split <;> rfl

theorem flush_loaded_block_number (s : OffsetScsiDevice) :
    s.flush.loaded_block_number = s.loaded_block_number := by
  unfold flush; split <;> rfl

theorem flush_block_size (s : OffsetScsiDevice) :
    s.flush.device.block_size = s.device.block_size := by
  unfold flush ScsiBlockDevice.writeAt; split <;> rfl

theorem flush_nblocks (s : OffsetScsiDevice) :
    s.flush.device.nblocks = s.device.nblocks := by
  unfold flush ScsiBlockDevice.writeAt; split <;> rfl

theorem flush_needs_flush (s : OffsetScsiDevice) : s.flush.needs_flush = false := by
  unfold flush
  split
  · rfl
  · rename_i h
    simpa using h

theorem flush_raw_idx (s : OffsetScsiDevice) : s.flush.raw_idx = s.raw_idx := by
  unfold raw_idx
  rw [flush_partition_start, flush_partition_idx]

theorem flush_data_of_dirty {s : OffsetScsiDevice} (hwf : WF s) (h : s.needs_flush = true) :
    s.flush.device.data = fun n =>
      if n = s.loaded_block_number then s.block_buffer else s.device.data n := by
  rw [flush_dirty h]
  unfold ScsiBlockDevice.writeAt buffered_block_raw_idx
  simp [Nat.mul_div_cancel_left _ hwf.bs_pos]

theorem flush_WF {s : OffsetScsiDevice} (hwf : WF s) : WF s.flush := by
  rcases hb : s.needs_flush with _ | _
  · rw [flush_clean hb]; exact hwf
  · have hdata := flush_data_of_dirty hwf hb
    have hne := hwf.dirty_nonempty hb
    have hlen : s.block_buffer.length = s.device.block_size := by
      rcases hwf.buf_len with h | h
      · exact absurd h hne
      · exact h
    constructor
    · rw [flush_block_size]; exact hwf.bs_pos
    · intro n hn
      rw [flush_block_size, hdata]
      rw [flush_nblocks] at hn
      by_cases hc : n = s.loaded_block_number
      · simp [hc, hlen]
      · simp [hc]
        exact hwf.blocks_len n hn
    · rw [flush_block_buffer, flush_block_size]
      exact Or.inr hlen
    · rw [flush_needs_flush]
      intro h
      exact absurd h (by simp)
    · intro _
      rw [flush_block_buffer, flush_loaded_block_number, hdata]
      simp

theorem effByte_flush {s : OffsetScsiDevice} (hwf : WF s) (addr : Nat) :
    effByte s.flush addr = effByte s addr := by
  rcases hb : s.needs_flush with _ | _
  · rw [flush_clean hb]
  · have hdata := flush_data_of_dirty hwf hb
    have hne := hwf.dirty_nonempty hb
    unfold effByte
    rw [flush_block_buffer, flush_block_size, flush_loaded_block_number, hdata]
    by_cases hc : addr / s.device.block_size = s.loaded_block_number
    · simp [hc, hne]
    · simp [hc]

theorem fill_step1_of_eq {s : OffsetScsiDevice}
    (h : s.cur_block_number = s.loaded_block_number) : s.fill_step1 = s := by
  unfold fill_step1
  simp [h]

theorem fill_step1_of_ne {s : OffsetScsiDevice}
    (h : s.cur_block_number ≠ s.loaded_block_number) :
    s.fill_step1 = { s.flush with block_buffer := [] } := by
  unfold fill_step1
  simp [h]

theorem fill_step1_partition_start (s : OffsetScsiDevice) :
    s.fill_step1.partition_start = s.partition_start := by
  unfold fill_step1
  split <;> simp [flush_partition_start]

theorem fill_step1_partition_idx (s : OffsetScsiDevice) :
    s.fill_step1.partition_idx = s.partition_idx := by
  unfold fill_step1
  split <;> simp [flush_partition_idx]

theorem fill_step1_block_size (s : OffsetScsiDevice) :
    s.fill_step1.device.block_size = s.device.block_size := by
  unfold fill_step1
  split <;> simp [flush_block_size]

theorem fill_step1_nblocks (s : OffsetScsiDevice) :
    s.fill_step1.device.nblocks = s.device.nblocks := by
  unfold fill_step1
  split <;> simp [flush_nblocks]

theorem fill_step1_raw_idx (s : OffsetScsiDevice) : s.fill_step1.raw_idx = s.raw_idx := by
  unfold raw_idx
  rw [fill_step1_partition_start, fill_step1_partition_idx]

theorem fill_step1_cur_block_number (s : OffsetScsiDevice) :
    s.fill_step1.cur_block_number = s.cur_block_number := by
  rw [cur_block_number_eq, cur_block_number_eq, fill_step1_raw_idx, fill_step1_block_size]

theorem fill_step1_cur_block_raw_idx (s : OffsetScsiDevice) :
    s.fill_step1.cur_block_raw_idx = s.cur_block_raw_idx := by
  rw [cur_block_raw_idx_eq, cur_block_raw_idx_eq, fill_step1_raw_idx, fill_step1_block_size]

theorem fill_step1_offset (s : OffsetScsiDevice) :
    s.fill_step1.offset_from_cur_block = s.offset_from_cur_block := by
  rw [offset_from_cur_block_eq, offset_from_cur_block_eq, fill_step1_raw_idx,
    fill_step1_block_size]

theorem fill_step1_log (s : OffsetScsiDevice) :
    s.fill_step1.log = s.log ++
      (if s.cur_block_number ≠ s.loaded_block_number ∧ s.needs_flush = true
       then [DevEvent.write s.buffered_block_raw_idx s.block_buffer] else []) := by
  by_cases hc : s.cur_block_number = s.loaded_block_number
  · rw [fill_step1_of_eq hc]
    simp [hc]
  · rw [fill_step1_of_ne hc]
    rcases hb : s.needs_flush with _ | _
    · rw [flush_clean hb]
      simp [hc, hb]
    · rw [flush_dirty hb]
      simp [hc, hb]

theorem fill_step2_of_nonempty {s : OffsetScsiDevice} (h : s.block_buffer ≠ []) :
    s.fill_step2 = s := by
  unfold fill_step2
  simp [h]

theorem fill_step2_of_empty {s : OffsetScsiDevice} (h : s.block_buffer = []) :
    s.fill_step2 = { s with
      block_buffer := s.device.readAt s.cur_block_raw_idx
      loaded_block_number := s.cur_block_number
      log := s.log ++ [DevEvent.read s.cur_block_raw_idx] } := by
  unfold fill_step2
  simp [h]

theorem fill_step2_partition_start (s : OffsetScsiDevice) :
    s.fill_step2.partition_start = s.partition_start := by
  unfold fill_step2
  split <;> rfl

theorem fill_step2_partition_idx (s : OffsetScsiDevice) :
    s.fill_step2.partition_idx = s.partition_idx := by
  unfold fill_step2
  split <;> rfl

theorem fill_step2_block_size (s : OffsetScsiDevice) :
    s.fill_step2.device.block_size = s.device.block_size := by
  unfold fill_step2
  split <;> rfl

theorem fill_step2_nblocks (s : OffsetScsiDevice) :
    s.fill_step2.device.nblocks = s.device.nblocks := by
  unfold fill_step2
  split <;> rfl

theorem fill_step2_device (s : OffsetScsiDevice) : s.fill_step2.device = s.device := by
  unfold fill_step2
  split <;> rfl

theorem fill_step2_needs_flush (s : OffsetScsiDevice) :
    s.fill_step2.needs_flush = s.needs_flush := by
  unfold fill_step2
  split <;> rfl

theorem fill_step2_raw_idx (s : OffsetScsiDevice) : s.fill_step2.raw_idx = s.raw_idx := by
  unfold raw_idx
  rw [fill_step2_partition_start, fill_step2_partition_idx]

theorem fill_step2_cur_block_number (s : OffsetScsiDevice) :
    s.fill_step2.cur_block_number = s.cur_block_number := by
  rw [cur_block_number_eq, cur_block_number_eq, fill_step2_raw_idx, fill_step2_block_size]

theorem fill_step2_offset (s : OffsetScsiDevice) :
    s.fill_step2.offset_from_cur_block = s.offset_from_cur_block := by
  rw [offset_from_cur_block_eq, offset_from_cur_block_eq, fill_step2_raw_idx,
    fill_step2_block_size]

theorem fill_step2_log (s : OffsetScsiDevice) :
    s.fill_step2.log = s.log ++
      (if s.block_buffer = [] then [DevEvent.read s.cur_block_raw_idx] else []) := by
  by_cases h : s.block_buffer = []
  · rw [fill_step2_of_empty h]
    simp [h]
  · rw [fill_step2_of_nonempty h]
    simp [h]

theorem WF_clear {t : OffsetScsiDevice} (hwf : WF t) (hcl : t.needs_flush = false) :
    WF { t with block_buffer := [] } := by
  constructor
  · exact hwf.bs_pos
  · exact hwf.blocks_len
  · exact Or.inl rfl
  · intro h
    rw [show ({ t with block_buffer := [] } : OffsetScsiDevice).needs_flush = t.needs_flush
      from rfl, hcl] at h
    cases h
  · intro _
    exact Or.inl rfl

theorem effByte_clear {t : OffsetScsiDevice} (hwf : WF t) (hcl : t.needs_flush = false)
    (addr : Nat) : effByte { t with block_buffer := [] } addr = effByte t addr := by
  unfold effByte
  rcases hwf.coherent hcl with h | h
  · simp [h]
  · by_cases hb : t.block_buffer = []
    · simp [hb]
    · by_cases hc : addr / t.device.block_size = t.loaded_block_number
      · simp only [hb, hc]
        simp [h]
      · simp [hb, hc]

theorem fill_step1_WF {s : OffsetScsiDevice} (hwf : WF s) : WF s.fill_step1 := by
  by_cases hc : s.cur_block_number = s.loaded_block_number
  · rw [fill_step1_of_eq hc]
    exact hwf
  · rw [fill_step1_of_ne hc]
    exact WF_clear (flush_WF hwf) (flush_needs_flush s)

theorem effByte_fill_step1 {s : OffsetScsiDevice} (hwf : WF s) (addr : Nat) :
    effByte s.fill_step1 addr = effByte s addr := by
  by_cases hc : s.cur_block_number = s.loaded_block_number
  · rw [fill_step1_of_eq hc]
  · rw [fill_step1_of_ne hc]
    rw [effByte_clear (flush_WF hwf) (flush_needs_flush s) addr]
    exact effByte_flush hwf addr

theorem readAt_cur_block (s : OffsetScsiDevice) (hbs : 0 < s.device.block_size) :
    s.device.readAt s.cur_block_raw_idx =
      if s.cur_block_number < s.device.nblocks then s.device.data s.cur_block_number
      else [] := by
  unfold ScsiBlockDevice.readAt
  rw [cur_block_raw_idx_eq, Nat.mul_div_cancel_left _ hbs, cur_block_number_eq]

theorem fill_step2_WF {s : OffsetScsiDevice} (hwf : WF s) : WF s.fill_step2 := by
  by_cases h : s.block_buffer = []
  · rw [fill_step2_of_empty h]
    constructor
    · exact hwf.bs_pos
    · exact hwf.blocks_len
    · rw [readAt_cur_block s hwf.bs_pos]
      by_cases hin : s.cur_block_number < s.device.nblocks
      · simp only [hin, if_true]
        exact Or.inr (hwf.blocks_len _ hin)
      · simp [hin]
    · intro hh
      exact absurd h (hwf.dirty_nonempty hh)
    · intro _
      rw [readAt_cur_block s hwf.bs_pos]
      by_cases hin : s.cur_block_number < s.device.nblocks
      · simp [hin]
      · simp [hin]
  · rw [fill_step2_of_nonempty h]
    exact hwf

theorem effByte_fill_step2 {s : OffsetScsiDevice} (hwf : WF s) (addr : Nat) :
    effByte s.fill_step2 addr = effByte s addr := by
  by_cases h : s.block_buffer = []
  · rw [fill_step2_of_empty h]
    unfold effByte
    simp only [readAt_cur_block s hwf.bs_pos]
    by_cases hin : s.cur_block_number < s.device.nblocks
    · have hlen : (s.device.data s.cur_block_number).length = s.device.block_size :=
        hwf.blocks_len _ hin
      have hne : s.device.data s.cur_block_number ≠ [] := by
        intro hcon
        rw [hcon] at hlen
        exact absurd hlen.symm (Nat.ne_of_gt hwf.bs_pos)
      by_cases hc : addr / s.device.block_size = s.cur_block_number
      · simp [hin, hc, h, hne]
      · simp [hin, hc, h]
    · simp [hin, h]
  · rw [fill_step2_of_nonempty h]

theorem s2_WF {s : OffsetScsiDevice} (hwf : WF s) : WF s.fill_step1.fill_step2 :=
  fill_step2_WF (fill_step1_WF hwf)

theorem s2_eff {s : OffsetScsiDevice} (hwf : WF s) (addr : Nat) :
    effByte s.fill_step1.fill_step2 addr = effByte s addr := by
  rw [effByte_fill_step2 (fill_step1_WF hwf) addr, effByte_fill_step1 hwf addr]

theorem s2_partition_start (s : OffsetScsiDevice) :
    s.fill_step1.fill_step2.partition_start = s.partition_start := by
  rw [fill_step2_partition_start, fill_step1_partition_start]

theorem s2_partition_idx (s : OffsetScsiDevice) :
    s.fill_step1.fill_step2.partition_idx = s.partition_idx := by
  rw [fill_step2_partition_idx, fill_step1_partition_idx]

theorem s2_block_size (s : OffsetScsiDevice) :
    s.fill_step1.fill_step2.device.block_size = s.device.block_size := by
  rw [fill_step2_block_size, fill_step1_block_size]

theorem s2_nblocks (s : OffsetScsiDevice) :
    s.fill_step1.fill_step2.device.nblocks = s.device.nblocks := by
  rw [fill_step2_nblocks, fill_step1_nblocks]

theorem s2_raw_idx (s : OffsetScsiDevice) :
    s.fill_step1.fill_step2.raw_idx = s.raw_idx := by
  rw [fill_step2_raw_idx, fill_step1_raw_idx]

theorem s2_offset (s : OffsetScsiDevice) :
    s.fill_step1.fill_step2.offset_from_cur_block = s.offset_from_cur_block := by
  rw [fill_step2_offset, fill_step1_offset]

theorem s2_cur_block_number (s : OffsetScsiDevice) :
    s.fill_step1.fill_step2.cur_block_number = s.cur_block_number := by
  rw [fill_step2_cur_block_number, fill_step1_cur_block_number]

theorem s2_loaded {s : OffsetScsiDevice} :
    s.fill_step1.fill_step2.loaded_block_number = s.cur_block_number := by
  by_cases hc : s.cur_block_number = s.loaded_block_number
  · rw [fill_step1_of_eq hc]
    by_cases h : s.block_buffer = []
    · rw [fill_step2_of_empty h]
    · rw [fill_step2_of_nonempty h]
      exact hc.symm
  · have h1 : s.fill_step1.block_buffer = [] := by
      rw [fill_step1_of_ne hc]
    rw [fill_step2_of_empty h1, fill_step1_cur_block_number]

theorem s2_buffer_length {s : OffsetScsiDevice} (hwf : WF s)
    (hin : s.cur_block_number < s.device.nblocks) :
    s.fill_step1.fill_step2.block_buffer.length = s.device.block_size := by
  by_cases h : s.fill_step1.block_buffer = []
  · have hwf1 := fill_step1_WF hwf
    rw [fill_step2_of_empty h]
    show (s.fill_step1.device.readAt s.fill_step1.cur_block_raw_idx).length = _
    rw [readAt_cur_block s.fill_step1 (by rw [fill_step1_block_size]; exact hwf.bs_pos)]
    rw [fill_step1_cur_block_number]
    have hin1 : s.cur_block_number < s.fill_step1.device.nblocks := by
      rw [fill_step1_nblocks]; exact hin
    simp only [hin1, if_true]
    rw [show (s.fill_step1.device.data s.cur_block_number).length
        = s.fill_step1.device.block_size from hwf1.blocks_len _ hin1,
      fill_step1_block_size]
  · rw [fill_step2_of_nonempty h]
    have hcase : s.cur_block_number = s.loaded_block_number := by
      by_contra hc
      exact h (by rw [fill_step1_of_ne hc])
    rw [fill_step1_of_eq hcase] at h ⊢
    rcases hwf.buf_len with h' | h'
    · exact absurd h' h
    · exact h'

theorem s2_buffer_out {s : OffsetScsiDevice} (hwf : WF s)
    (hout : s.device.nblocks ≤ s.cur_block_number) :
    s.fill_step1.fill_step2.block_buffer = [] ∨
      (s.fill_step1.fill_step2 = s ∧ s.block_buffer ≠ [] ∧
        s.cur_block_number = s.loaded_block_number) := by
  by_cases h : s.fill_step1.block_buffer = []
  · left
    rw [fill_step2_of_empty h]
    show s.fill_step1.device.readAt s.fill_step1.cur_block_raw_idx = []
    rw [readAt_cur_block s.fill_step1 (by rw [fill_step1_block_size]; exact hwf.bs_pos)]
    rw [fill_step1_cur_block_number]
    have : ¬ s.cur_block_number < s.fill_step1.device.nblocks := by
      rw [fill_step1_nblocks]
      omega
    simp [this]
  · right
    have hcase : s.cur_block_number = s.loaded_block_number := by
      by_contra hc
      exact h (by rw [fill_step1_of_ne hc])
    rw [fill_step1_of_eq hcase] at h ⊢
    exact ⟨fill_step2_of_nonempty h, h, hcase⟩

theorem fill_buf_some {s : OffsetScsiDevice}
    (hle : s.offset_from_cur_block ≤ s.fill_step1.fill_step2.block_buffer.length) :
    s.fill_buf = some
      (s.fill_step1.fill_step2.block_buffer.drop s.offset_from_cur_block,
        s.fill_step1.fill_step2) := by
  unfold fill_buf
  dsimp only
  rw [s2_offset]
  simp [hle]

theorem fill_buf_dest {s : OffsetScsiDevice} {sl : List Nat} {s' : OffsetScsiDevice}
    (h : s.fill_buf = some (sl, s')) :
    s' = s.fill_step1.fill_step2 ∧
      sl = s.fill_step1.fill_step2.block_buffer.drop s.offset_from_cur_block := by
  unfold fill_buf at h
  dsimp only at h
  rw [s2_offset] at h
  split at h
  · rename_i hle
    refine ⟨?_, ?_⟩ <;> injection h with h' <;> injection h' with h1 h2
    · exact h2.symm
    · exact h1.symm
  · cases h

theorem consume_partition_idx (s : OffsetScsiDevice) (n : Nat) :
    (s.consume n).partition_idx = s.partition_idx + n := rfl

theorem consume_partition_start (s : OffsetScsiDevice) (n : Nat) :
    (s.consume n).partition_start = s.partition_start := rfl

theorem consume_raw_idx (s : OffsetScsiDevice) (n : Nat) :
    (s.consume n).raw_idx = s.raw_idx + n := by
  unfold consume raw_idx
  dsimp only
  omega

theorem WF_consume {s : OffsetScsiDevice} (hwf : WF s) (n : Nat) : WF (s.consume n) := by
  constructor
  · exact hwf.bs_pos
  · exact hwf.blocks_len
  · exact hwf.buf_len
  · exact hwf.dirty_nonempty
  · exact hwf.coherent

theorem effByte_consume (s : OffsetScsiDevice) (n : Nat) (a : Nat) :
    effByte (s.consume n) a = effByte s a := rfl

theorem eq_of_div_mod {a b n : Nat} (h1 : a / n = b / n) (h2 : a % n = b % n) :
    a = b := by
  have ha := Nat.div_add_mod a n
  have hb := Nat.div_add_mod b n
  rw [← ha, ← hb, h1, h2]

theorem effByte_eq_getD {s : OffsetScsiDevice} {addr : Nat} (hne : s.block_buffer ≠ [])
    (hb : addr / s.device.block_size = s.loaded_block_number) :
    effByte s addr = s.block_buffer.getD (addr % s.device.block_size) 0 := by
  unfold effByte
  simp [hne, hb]

theorem read_loop_succ (s : OffsetScsiDevice) (remaining : Nat) (acc : List Nat) :
    read_loop s (remaining + 1) acc =
      match s.fill_buf with
      | none => none
      | some (buff, s1) =>
        match buff with
        | [] => some (acc, s1)
        | b :: _ => read_loop (s1.consume 1) remaining (acc ++ [b]) := rfl

theorem write_loop_cons (s : OffsetScsiDevice) (b : Nat) (rest : List Nat) (written : Nat) :
    write_loop s (b :: rest) written =
      match s.fill_buf with
      | none => none
      | some (_, s1) =>
        if s1.block_buffer = [] then some (written, s1)
        else if s1.offset_from_cur_block < s1.block_buffer.length then
          write_loop
            ((if s1.block_buffer.getD s1.offset_from_cur_block 0 ≠ b then
                { s1 with
                  block_buffer := s1.block_buffer.set s1.offset_from_cur_block b
                  needs_flush := true }
              else s1).consume 1) rest (written + 1)
        else none := rfl

theorem read_one {s : OffsetScsiDevice} (hwf : WF s)
    (hin : s.cur_block_number < s.device.nblocks) :
    ∃ s', s.read 1 = some ([effByte s s.raw_idx], s') ∧ WF s' ∧
      (∀ a, effByte s' a = effByte s a) ∧
      s'.partition_start = s.partition_start ∧
      s'.partition_idx = s.partition_idx + 1 ∧
      s'.device.block_size = s.device.block_size ∧
      s'.device.nblocks = s.device.nblocks := by
  have hlen := s2_buffer_length hwf hin
  have hofflt : s.offset_from_cur_block < s.device.block_size := by
    rw [offset_from_cur_block_eq]
    exact Nat.mod_lt _ hwf.bs_pos
  have hle : s.offset_from_cur_block ≤ s.fill_step1.fill_step2.block_buffer.length := by
    rw [hlen]
    exact le_of_lt hofflt
  have hfill := fill_buf_some hle
  rcases hd : s.fill_step1.fill_step2.block_buffer.drop s.offset_from_cur_block with _ | ⟨b, l'⟩
  · exfalso
    have := List.drop_eq_nil_iff.mp hd
    omega
  · have hbval : s.fill_step1.fill_step2.block_buffer.getD s.offset_from_cur_block 0 = b := by
      have h0 : (s.fill_step1.fill_step2.block_buffer.drop s.offset_from_cur_block)[0]? =
          some b := by
        rw [hd]
        simp
      rw [List.getElem?_drop, Nat.add_zero] at h0
      rw [List.getD_eq_getElem?_getD, h0]
      rfl
    have hbufne : s.fill_step1.fill_step2.block_buffer ≠ [] :=
      List.ne_nil_of_length_pos (by omega)
    have heffval : effByte s s.raw_idx = b := by
      rw [← s2_eff hwf s.raw_idx]
      rw [effByte_eq_getD hbufne
        (by rw [s2_block_size, s2_loaded, cur_block_number_eq])]
      rw [s2_block_size, ← offset_from_cur_block_eq]
      exact hbval
    refine ⟨s.fill_step1.fill_step2.consume 1, ?_, WF_consume (s2_WF hwf) 1, ?_, ?_, ?_, ?_, ?_⟩
    · show read_loop s 1 [] = _
      rw [read_loop_succ, hfill]
      dsimp only
      rw [hd]
      dsimp only
      show some ([] ++ [b], _) = _
      rw [heffval]
      rfl
    · intro a
      rw [effByte_consume, s2_eff hwf]
    · rw [consume_partition_start, s2_partition_start]
    · rw [consume_partition_idx, s2_partition_idx]
    · show s.fill_step1.fill_step2.device.block_size = _
      exact s2_block_size s
    · show s.fill_step1.fill_step2.device.nblocks = _
      exact s2_nblocks s

theorem effByte_of_ne {s : OffsetScsiDevice} {addr : Nat}
    (hb : ¬ addr / s.device.block_size = s.loaded_block_number) :
    effByte s addr =
      (s.device.data (addr / s.device.block_size)).getD (addr % s.device.block_size) 0 := by
  unfold effByte
  simp [hb]

theorem write_one {s : OffsetScsiDevice} (hwf : WF s)
    (hin : s.cur_block_number < s.device.nblocks) (v : Nat) :
    ∃ s', s.write [v] = some (1, s') ∧ WF s' ∧
      effByte s' s.raw_idx = v ∧
      (∀ a, a ≠ s.raw_idx → effByte s' a = effByte s a) ∧
      s'.partition_start = s.partition_start ∧
      s'.partition_idx = s.partition_idx + 1 ∧
      s'.device.block_size = s.device.block_size ∧
      s'.device.nblocks = s.device.nblocks := by
  have hlen := s2_buffer_length hwf hin
  have hofflt : s.offset_from_cur_block < s.device.block_size := by
    rw [offset_from_cur_block_eq]
    exact Nat.mod_lt _ hwf.bs_pos
  have hle : s.offset_from_cur_block ≤ s.fill_step1.fill_step2.block_buffer.length := by
    rw [hlen]
    exact le_of_lt hofflt
  have hfill := fill_buf_some hle
  have hbufne : s.fill_step1.fill_step2.block_buffer ≠ [] :=
    List.ne_nil_of_length_pos (by omega)
  have hlt : s.fill_step1.fill_step2.offset_from_cur_block <
      s.fill_step1.fill_step2.block_buffer.length := by
    rw [s2_offset, hlen]
    exact hofflt
  have hloadeq : s.raw_idx / s.fill_step1.fill_step2.device.block_size =
      s.fill_step1.fill_step2.loaded_block_number := by
    rw [s2_block_size, s2_loaded, cur_block_number_eq]
  by_cases hv : s.fill_step1.fill_step2.block_buffer.getD s.offset_from_cur_block 0 = v
  · refine ⟨s.fill_step1.fill_step2.consume 1, ?_, WF_consume (s2_WF hwf) 1, ?_, ?_, ?_, ?_,
      ?_, ?_⟩
    · show write_loop s [v] 0 = _
      rw [write_loop_cons, hfill]
      dsimp only
      rw [if_neg hbufne, if_pos hlt, s2_offset, if_neg (not_not_intro hv)]
      rfl
    · rw [effByte_consume, effByte_eq_getD hbufne hloadeq, s2_block_size,
        ← offset_from_cur_block_eq]
      exact hv
    · intro a _
      rw [effByte_consume, s2_eff hwf]
    · rw [consume_partition_start, s2_partition_start]
    · rw [consume_partition_idx, s2_partition_idx]
    · show s.fill_step1.fill_step2.device.block_size = _
      exact s2_block_size s
    · show s.fill_step1.fill_step2.device.nblocks = _
      exact s2_nblocks s
  · have hsetlen : (s.fill_step1.fill_step2.block_buffer.set s.offset_from_cur_block
        v).length = s.device.block_size := by
      rw [List.length_set]
      exact hlen
    have hsetne : s.fill_step1.fill_step2.block_buffer.set s.offset_from_cur_block v ≠ [] :=
      List.ne_nil_of_length_pos (by omega)
    refine ⟨({ s.fill_step1.fill_step2 with
        block_buffer := s.fill_step1.fill_step2.block_buffer.set s.offset_from_cur_block v
        needs_flush := true }).consume 1, ?_, ?_, ?_, ?_, ?_, ?_, ?_, ?_⟩
    · show write_loop s [v] 0 = _
      rw [write_loop_cons, hfill]
      dsimp only
      rw [if_neg hbufne, if_pos hlt, s2_offset, if_pos hv]
      rfl
    · constructor
      · exact (s2_WF hwf).bs_pos
      · exact (s2_WF hwf).blocks_len
      · right
        show (s.fill_step1.fill_step2.block_buffer.set s.offset_from_cur_block v).length =
          s.fill_step1.fill_step2.device.block_size
        rw [hsetlen, s2_block_size]
      · intro _
        exact hsetne
      · intro h
        cases h
    · rw [effByte_consume]
      rw [effByte_eq_getD hsetne (by exact hloadeq)]
      show (s.fill_step1.fill_step2.block_buffer.set s.offset_from_cur_block v).getD
        (s.raw_idx % s.fill_step1.fill_step2.device.block_size) 0 = v
      rw [s2_block_size, ← offset_from_cur_block_eq, List.getD_eq_getElem?_getD,
        List.getElem?_set_self (by rw [hlen]; exact hofflt)]
      rfl
    · intro a ha
      rw [effByte_consume]
      rw [← s2_eff hwf a]
      by_cases hcond : a / s.device.block_size = s.cur_block_number
      · have hc1 : a / s.fill_step1.fill_step2.device.block_size =
            s.fill_step1.fill_step2.loaded_block_number := by
          rw [s2_block_size, s2_loaded]
          exact hcond
        rw [effByte_eq_getD hsetne (by exact hc1), effByte_eq_getD hbufne hc1]
        show (s.fill_step1.fill_step2.block_buffer.set s.offset_from_cur_block v).getD
            (a % s.fill_step1.fill_step2.device.block_size) 0 = _
        have hmodne : s.offset_from_cur_block ≠ a % s.fill_step1.fill_step2.device.block_size := by
          rw [s2_block_size, offset_from_cur_block_eq]
          intro hmod
          apply ha
          exact eq_of_div_mod (n := s.device.block_size)
            (by rw [hcond, cur_block_number_eq]) hmod.symm
        rw [List.getD_eq_getElem?_getD, List.getD_eq_getElem?_getD,
          List.getElem?_set_ne hmodne]
      · have hc1 : ¬ a / s.fill_step1.fill_step2.device.block_size =
            s.fill_step1.fill_step2.loaded_block_number := by
          rw [s2_block_size, s2_loaded]
          exact hcond
        rw [effByte_of_ne (by exact hc1), effByte_of_ne hc1]
    · rw [consume_partition_start]
      exact s2_partition_start s
    · rw [consume_partition_idx]
      exact congrArg (· + 1) (s2_partition_idx s)
    · show s.fill_step1.fill_step2.device.block_size = _
      exact s2_block_size s
    · show s.fill_step1.fill_step2.device.nblocks = _
      exact s2_nblocks s

theorem seek_start (s : OffsetScsiDevice) (off : Nat) :
    s.seek (SeekFrom.start off) = some (off, { s with partition_idx := off }) := rfl

theorem WF_set_idx {s : OffsetScsiDevice} (hwf : WF s) (n : Nat) :
    WF { s with partition_idx := n } := by
  constructor
  · exact hwf.bs_pos
  · exact hwf.blocks_len
  · exact hwf.buf_len
  · exact hwf.dirty_nonempty
  · exact hwf.coherent

theorem effByte_set_idx (s : OffsetScsiDevice) (n : Nat) (a : Nat) :
    effByte { s with partition_idx := n } a = effByte s a := rfl

end OffsetScsiDevice

namespace OffsetScsiDevice

theorem runInterlude_spec {s : OffsetScsiDevice} (hwf : WF s) (itl : Interlude)
    (hok : itl.ok s.partition_start s.device.block_size s.device.nblocks) :
    ∃ s', runInterlude s itl = some s' ∧ WF s' ∧ (∀ a, effByte s' a = effByte s a) ∧
      s'.partition_start = s.partition_start ∧
      s'.device.block_size = s.device.block_size ∧
      s'.device.nblocks = s.device.nblocks := by
  cases itl with
  | nothing =>
    exact ⟨s, rfl, hwf, fun a => rfl, rfl, rfl, rfl⟩
  | doFlush =>
    exact ⟨s.flush, rfl, flush_WF hwf, effByte_flush hwf, flush_partition_start s,
      flush_block_size s, flush_nblocks s⟩
  | evict off2 =>
    have hwf1 : WF { s with partition_idx := off2 } := WF_set_idx hwf off2
    have hin1 : ({ s with partition_idx := off2 } : OffsetScsiDevice).cur_block_number <
        ({ s with partition_idx := off2 } : OffsetScsiDevice).device.nblocks := by
      rw [cur_block_number_eq]
      exact hok
    have hofflt : ({ s with partition_idx := off2 } : OffsetScsiDevice).offset_from_cur_block <
        ({ s with partition_idx := off2 } : OffsetScsiDevice).device.block_size := by
      rw [offset_from_cur_block_eq]
      exact Nat.mod_lt _ hwf1.bs_pos
    have hle := le_of_lt (lt_of_lt_of_eq hofflt (s2_buffer_length hwf1 hin1).symm)
    have hfill := fill_buf_some hle
    refine ⟨_, ?_, s2_WF hwf1, ?_, ?_, ?_, ?_⟩
    · show (match ({ s with partition_idx := off2 } : OffsetScsiDevice).fill_buf with
        | none => none
        | some (_, s2) => some s2) = _
      rw [hfill]
    · intro a
      rw [s2_eff hwf1 a, effByte_set_idx]
    · rw [s2_partition_start]
    · rw [s2_block_size]
    · rw [s2_nblocks]

end OffsetScsiDevice

open OffsetScsiDevice in
/-- C1: for every in-range partition offset and every byte value, the
sequence `seek(offset); write([value]); seek(offset); read(1 byte)` yields
exactly that value, whether nothing, a `flush()`, or a block-boundary-crossing
buffer reload (a visit to another in-range block) happens between the write
and the read. -/
theorem c1_round_trip (s : OffsetScsiDevice) (off v : Nat) (itl : Interlude)
    (hwf : WF s)
    (hin : (s.partition_start + off) / s.device.block_size < s.device.nblocks)
    (hok : itl.ok s.partition_start s.device.block_size s.device.nblocks) :
    roundTrip s off v itl = some [v] := by
  have hwf1 : WF { s with partition_idx := off } := WF_set_idx hwf off
  have hin1 : ({ s with partition_idx := off } : OffsetScsiDevice).cur_block_number <
      ({ s with partition_idx := off } : OffsetScsiDevice).device.nblocks := by
    rw [cur_block_number_eq]
    exact hin
  obtain ⟨s2, hw, hwf2, heffv, heffo, hps2, hpi2, hbs2, hnb2⟩ := write_one hwf1 hin1 v
  have hok2 : itl.ok s2.partition_start s2.device.block_size s2.device.nblocks := by
    rw [hps2, hbs2, hnb2]
    exact hok
  obtain ⟨s3, hitl, hwf3, heff3, hps3, hbs3, hnb3⟩ := runInterlude_spec hwf2 itl hok2
  have hwf4 : WF { s3 with partition_idx := off } := WF_set_idx hwf3 off
  have hin4 : ({ s3 with partition_idx := off } : OffsetScsiDevice).cur_block_number <
      ({ s3 with partition_idx := off } : OffsetScsiDevice).device.nblocks := by
    rw [cur_block_number_eq]
    show (s3.partition_start + off) / s3.device.block_size < s3.device.nblocks
    rw [hps3, hps2, hbs3, hbs2, hnb3, hnb2]
    exact hin
  obtain ⟨s5, hr, hwf5, heff5, hps5, hpi5, hbs5, hnb5⟩ := read_one hwf4 hin4
  have hval : effByte { s3 with partition_idx := off }
      ({ s3 with partition_idx := off } : OffsetScsiDevice).raw_idx = v := by
    rw [effByte_set_idx]
    show effByte s3 (s3.partition_start + off) = v
    rw [hps3, hps2, heff3]
    exact heffv
  unfold roundTrip
  rw [seek_start]
  simp only [Option.bind_eq_bind, Option.some_bind]
  rw [hw]
  simp only [Option.some_bind]
  rw [hitl]
  simp only [Option.some_bind]
  rw [seek_start]
  simp only [Option.some_bind]
  rw [hr]
  simp only [Option.some_bind]
  rw [hval]
  rfl

namespace OffsetScsiDevice

theorem div_mod_succ {a bs : Nat} (h : a % bs + 1 < bs) :
    (a + 1) / bs = a / bs ∧ (a + 1) % bs = a % bs + 1 := by
  have hbs : 0 < bs := by omega
  have h0 := Nat.div_add_mod a bs
  have hrw : a + 1 = (a % bs + 1) + bs * (a / bs) := by omega
  constructor
  · rw [hrw, Nat.add_mul_div_left _ _ hbs, Nat.div_eq_of_lt h, Nat.zero_add]
  · rw [hrw, Nat.add_mul_mod_self_left, Nat.mod_eq_of_lt h]

theorem noop_write_loop (bytes : List Nat) :
    ∀ (s : OffsetScsiDevice) (w : Nat), WF s →
      s.cur_block_number = s.loaded_block_number →
      s.block_buffer ≠ [] →
      s.offset_from_cur_block + bytes.length ≤ s.device.block_size →
      bytes = (s.block_buffer.drop s.offset_from_cur_block).take bytes.length →
      write_loop s bytes w =
        some (w + bytes.length,
          { s with partition_idx := s.partition_idx + bytes.length }) := by
  induction bytes with
  | nil =>
    intro s w _ _ _ _ _
    show some (w, s) = _
    simp
  | cons b rest ih =>
    intro s w hwf hc hne hfit heq
    have hlen : s.block_buffer.length = s.device.block_size := by
      rcases hwf.buf_len with h | h
      · exact absurd h hne
      · exact h
    have hofflt : s.offset_from_cur_block < s.device.block_size := by
      simp at hfit
      omega
    have hs2 : s.fill_step1.fill_step2 = s := by
      rw [fill_step1_of_eq hc, fill_step2_of_nonempty hne]
    have hle : s.offset_from_cur_block ≤ s.fill_step1.fill_step2.block_buffer.length := by
      rw [hs2, hlen]
      exact le_of_lt hofflt
    have hfill := fill_buf_some hle
    rw [hs2] at hfill
    rcases hd : s.block_buffer.drop s.offset_from_cur_block with _ | ⟨x, xs⟩
    · rw [hd] at heq
      simp at heq
    · rw [hd] at heq
      simp only [List.length_cons] at heq
      rw [List.take_succ_cons] at heq
      injection heq with hb hrest
      have hxval : s.block_buffer.getD s.offset_from_cur_block 0 = b := by
        have h0 : (s.block_buffer.drop s.offset_from_cur_block)[0]? = some x := by
          rw [hd]
          simp
        rw [List.getElem?_drop, Nat.add_zero] at h0
        rw [List.getD_eq_getElem?_getD, h0, hb]
        rfl
      rw [write_loop_cons, hfill]
      dsimp only
      rw [if_neg hne, if_pos (by rw [hlen]; exact hofflt),
        if_neg (not_not_intro hxval)]
      rcases rest with _ | ⟨b2, rest2⟩
      · show some (w + 1, s.consume 1) = _
        unfold consume
        simp
      · have hsucc : s.raw_idx % s.device.block_size + 1 < s.device.block_size := by
          rw [← offset_from_cur_block_eq]
          simp at hfit
          omega
        obtain ⟨hdiv, hmod⟩ := div_mod_succ hsucc
        have hc' : (s.consume 1).cur_block_number = (s.consume 1).loaded_block_number := by
          show (s.consume 1).cur_block_number = s.loaded_block_number
          rw [cur_block_number_eq]
          show (s.consume 1).raw_idx / s.device.block_size = _
          rw [consume_raw_idx, hdiv, ← cur_block_number_eq]
          exact hc
        have hoff' : (s.consume 1).offset_from_cur_block = s.offset_from_cur_block + 1 := by
          rw [offset_from_cur_block_eq]
          show (s.consume 1).raw_idx % s.device.block_size = _
          rw [consume_raw_idx, hmod, ← offset_from_cur_block_eq]
        have hfit' : (s.consume 1).offset_from_cur_block + (b2 :: rest2).length ≤
            (s.consume 1).device.block_size := by
          show _ ≤ s.device.block_size
          rw [hoff']
          simp at hfit ⊢
          omega
        have heq' : b2 :: rest2 =
            ((s.consume 1).block_buffer.drop (s.consume 1).offset_from_cur_block).take
              (b2 :: rest2).length := by
          show b2 :: rest2 = (s.block_buffer.drop _).take _
          rw [hoff', ← List.drop_drop, hd]
          show b2 :: rest2 = List.take _ (List.drop 1 (x :: xs))
          rw [show List.drop 1 (x :: xs) = xs from rfl]
          exact hrest
        have := ih (s.consume 1) (w + 1) (WF_consume hwf 1) hc'
          (by show s.block_buffer ≠ []; exact hne) hfit' heq'
        rw [this]
        unfold consume
        dsimp only
        rw [show s.partition_idx + 1 + (b2 :: rest2).length =
          s.partition_idx + (b :: b2 :: rest2).length from by simp; omega]
        rw [show w + 1 + (b2 :: rest2).length = w + (b :: b2 :: rest2).length from by
          simp; omega]

end OffsetScsiDevice

open OffsetScsiDevice in
/-- C5 (amended): writing bytes that all equal the corresponding buffered
bytes (the cursor lying inside the loaded block and the written range staying
inside it) changes nothing but the cursor — in particular it never sets the
dirty flag — and, provided the dirty flag was not already set before the
write, a following `flush()` is the identity, so it performs no device
write. -/
theorem c5_noop_write (s : OffsetScsiDevice) (bytes : List Nat) (hwf : WF s)
    (hc : s.cur_block_number = s.loaded_block_number)
    (hne : s.block_buffer ≠ [])
    (hfit : s.offset_from_cur_block + bytes.length ≤ s.device.block_size)
    (heq : bytes = (s.block_buffer.drop s.offset_from_cur_block).take bytes.length) :
    s.write bytes =
      some (bytes.length, { s with partition_idx := s.partition_idx + bytes.length }) ∧
    (s.needs_flush = false →
      ({ s with partition_idx := s.partition_idx + bytes.length } : OffsetScsiDevice).flush =
        { s with partition_idx := s.partition_idx + bytes.length }) := by
  constructor
  · have h := noop_write_loop bytes s 0 hwf hc hne hfit heq
    show write_loop s bytes 0 = _
    rw [h, Nat.zero_add]
  · intro hclean
    exact flush_clean hclean

open OffsetScsiDevice in
/-- C2: with a dirty byte in block `N` and the cursor moved into block
`N + 1`, the next buffer fill succeeds and issues exactly one device write —
of the buffered block `N`, at its block start address — before it reads
block `N + 1`, records `N + 1` as the loaded block number, and leaves the
dirty flag cleared, exactly as the fill algorithm (flush if the block
changed and the buffer is dirty, clear, read the new block, record it)
prescribes. -/
theorem c2_boundary_flush (s : OffsetScsiDevice) (N : Nat) (hwf : WF s)
    (hdirty : s.needs_flush = true)
    (hload : s.loaded_block_number = N)
    (hcur : s.cur_block_number = N + 1)
    (hin : N + 1 < s.device.nblocks) :
    ∃ sl s', s.fill_buf = some (sl, s') ∧
      s'.log = s.log ++ [DevEvent.write (s.device.block_size * N) s.block_buffer,
        DevEvent.read (s.device.block_size * (N + 1))] ∧
      s'.loaded_block_number = N + 1 ∧
      s'.needs_flush = false ∧
      s'.block_buffer = s.device.data (N + 1) := by
  have hcross : s.cur_block_number ≠ s.loaded_block_number := by
    rw [hcur, hload]
    omega
  have hin' : s.cur_block_number < s.device.nblocks := by
    rw [hcur]
    exact hin
  have hofflt : s.offset_from_cur_block < s.device.block_size := by
    rw [offset_from_cur_block_eq]
    exact Nat.mod_lt _ hwf.bs_pos
  have hle : s.offset_from_cur_block ≤ s.fill_step1.fill_step2.block_buffer.length := by
    rw [s2_buffer_length hwf hin']
    exact le_of_lt hofflt
  have hfill := fill_buf_some hle
  have hstep1buf : s.fill_step1.block_buffer = [] := by
    rw [fill_step1_of_ne hcross]
  have hcurraw : s.cur_block_raw_idx = s.device.block_size * (N + 1) := by
    rw [cur_block_raw_idx_eq, ← cur_block_number_eq, hcur]
  have hbufeq : s.fill_step1.fill_step2.block_buffer = s.device.data (N + 1) := by
    rw [fill_step2_of_empty hstep1buf]
    show s.fill_step1.device.readAt s.fill_step1.cur_block_raw_idx = _
    rw [readAt_cur_block s.fill_step1 (by rw [fill_step1_block_size]; exact hwf.bs_pos),
      fill_step1_cur_block_number, hcur]
    have hin1 : N + 1 < s.fill_step1.device.nblocks := by
      rw [fill_step1_nblocks]
      exact hin
    rw [if_pos hin1, fill_step1_of_ne hcross]
    show s.flush.device.data (N + 1) = _
    rw [flush_data_of_dirty hwf hdirty]
    simp [hload]
  refine ⟨_, _, hfill, ?_, ?_, ?_, hbufeq⟩
  · rw [fill_step2_log, fill_step1_log, fill_step1_cur_block_raw_idx, hcurraw]
    rw [if_pos ⟨hcross, hdirty⟩, if_pos hstep1buf]
    show (s.log ++ [DevEvent.write s.buffered_block_raw_idx s.block_buffer]) ++ _ = _
    rw [show s.buffered_block_raw_idx = s.device.block_size * N from by
      rw [buffered_block_raw_idx, hload]]
    simp
  · rw [s2_loaded, hcur]
  · rw [fill_step2_needs_flush, fill_step1_of_ne hcross]
    exact flush_needs_flush s

open OffsetScsiDevice in
/-- C6 (amended): once the device has no blocks at or beyond the cursor and
the cursor sits at a block boundary (intra-block offset 0, no stale buffer
for that block), every read call — with any requested size — copies 0 bytes
and returns successfully, and leaves the stream in a state satisfying the
same conditions, so all subsequent reads do the same. -/
theorem c6_end_of_medium (s : OffsetScsiDevice) (n : Nat) (hwf : WF s)
    (hend : s.device.nblocks ≤ s.cur_block_number)
    (hoff : s.offset_from_cur_block = 0)
    (hbuf : s.loaded_block_number = s.cur_block_number → s.block_buffer = []) :
    ∃ s', s.read n = some ([], s') ∧ WF s' ∧
      s'.partition_idx = s.partition_idx ∧ s'.partition_start = s.partition_start ∧
      s'.device.nblocks ≤ s'.cur_block_number ∧
      s'.offset_from_cur_block = 0 ∧
      (s'.loaded_block_number = s'.cur_block_number → s'.block_buffer = []) := by
  cases n with
  | zero =>
    exact ⟨s, rfl, hwf, rfl, rfl, hend, hoff, hbuf⟩
  | succ m =>
    have hs2buf : s.fill_step1.fill_step2.block_buffer = [] := by
      rcases s2_buffer_out hwf hend with h | ⟨_, hne, hcl⟩
      · exact h
      · exact absurd (hbuf hcl.symm) hne
    have hle : s.offset_from_cur_block ≤ s.fill_step1.fill_step2.block_buffer.length := by
      rw [hoff]
      exact Nat.zero_le _
    have hfill := fill_buf_some hle
    rw [hs2buf, List.drop_nil] at hfill
    refine ⟨s.fill_step1.fill_step2, ?_, s2_WF hwf, ?_, ?_, ?_, ?_, ?_⟩
    · show read_loop s (m + 1) [] = _
      rw [read_loop_succ, hfill]
    · exact s2_partition_idx s
    · exact s2_partition_start s
    · rw [s2_nblocks, s2_cur_block_number]
      exact hend
    · rw [s2_offset]
      exact hoff
    · intro _
      exact hs2buf

namespace OffsetScsiDevice

theorem seek_frame {s : OffsetScsiDevice} {pos : SeekFrom} {r : Nat}
    {s' : OffsetScsiDevice} (h : s.seek pos = some (r, s')) :
    s'.device = s.device ∧ s'.block_buffer = s.block_buffer ∧
    s'.partition_start = s.partition_start ∧
    s'.loaded_block_number = s.loaded_block_number ∧
    s'.needs_flush = s.needs_flush ∧ s'.log = s.log ∧ s'.partition_idx = r := by
  cases pos with
  | start absr =>
    cases h
    exact ⟨rfl, rfl, rfl, rfl, rfl, rfl, rfl⟩
  | current off =>
    unfold seek at h
    dsimp only at h
    split_ifs at h with h1 h2 <;> cases h <;>
      exact ⟨rfl, rfl, rfl, rfl, rfl, rfl, rfl⟩
  | fromEnd off => cases h

end OffsetScsiDevice

open OffsetScsiDevice in
/-- C8: every successful seek (absolute or relative) changes only the cursor:
buffer contents, loaded block number, dirty flag, partition start and the
device are untouched, and the ghost log shows no device read or write was
issued; the cursor is set to the returned position. -/
theorem c8_seek_frame (s : OffsetScsiDevice) (pos : SeekFrom) (r : Nat)
    (s' : OffsetScsiDevice) (h : s.seek pos = some (r, s')) :
    s'.block_buffer = s.block_buffer ∧ s'.loaded_block_number = s.loaded_block_number ∧
    s'.needs_flush = s.needs_flush ∧ s'.partition_start = s.partition_start ∧
    s'.device = s.device ∧ s'.log = s.log ∧ s'.partition_idx = r := by
  obtain ⟨hd, hb, hps, hl, hn, hlog, hr⟩ := seek_frame h
  exact ⟨hb, hl, hn, hps, hd, hlog, hr⟩

open OffsetScsiDevice in
/-- C7: disposal performs exactly one flush attempt: if the buffer is dirty
at disposal time the teardown issues exactly one device write (the buffered
block at its start address) and clears the dirty flag; if it is clean,
teardown changes nothing.  `drop` returns only the new state — the
`io::Result` of the flush is discarded (`self.flush();`), so a flush failure
is not observable through the disposal path. -/
theorem c7_drop_flush (s : OffsetScsiDevice) :
    (s.needs_flush = true →
      s.drop.log = s.log ++
        [DevEvent.write (s.device.block_size * s.loaded_block_number) s.block_buffer] ∧
      s.drop.needs_flush = false) ∧
    (s.needs_flush = false → s.drop = s) := by
  constructor
  · intro h
    constructor
    · show s.flush.log = _
      rw [flush_dirty h]
      rfl
    · show s.flush.needs_flush = false
      exact flush_needs_flush s
  · intro h
    show s.flush = s
    exact flush_clean h

open OffsetScsiDevice in
/-- C10: `seek` is not total over the seek interface: for every state and
every offset, an end-relative seek (`SeekFrom::End`) hits `unimplemented!()`
and panics (modelled by `none`) instead of returning an error. -/
theorem c10_seek_end_panics (s : OffsetScsiDevice) (off : Int) :
    s.seek (SeekFrom.fromEnd off) = none := rfl

namespace OffsetScsiDevice

theorem dirtyInv_flush (s : OffsetScsiDevice) : dirtyInv s.flush := by
  intro h
  rw [flush_needs_flush] at h
  cases h

theorem dirtyInv_step1 {s : OffsetScsiDevice} (hi : dirtyInv s) : dirtyInv s.fill_step1 := by
  by_cases hc : s.cur_block_number = s.loaded_block_number
  · rw [fill_step1_of_eq hc]
    exact hi
  · rw [fill_step1_of_ne hc]
    intro h
    have h' : s.flush.needs_flush = true := h
    rw [flush_needs_flush] at h'
    cases h'

theorem dirtyInv_step2 {s : OffsetScsiDevice} (hi : dirtyInv s) : dirtyInv s.fill_step2 := by
  by_cases hb : s.block_buffer = []
  · rw [fill_step2_of_empty hb]
    intro h
    have h' : s.needs_flush = true := h
    exact absurd hb (hi h')
  · rw [fill_step2_of_nonempty hb]
    exact hi

theorem dirtyInv_fill {s : OffsetScsiDevice} {sl : List Nat} {s' : OffsetScsiDevice}
    (h : s.fill_buf = some (sl, s')) (hi : dirtyInv s) : dirtyInv s' := by
  obtain ⟨hs', _⟩ := fill_buf_dest h
  rw [hs']
  exact dirtyInv_step2 (dirtyInv_step1 hi)

theorem dirtyInv_consume {s : OffsetScsiDevice} (n : Nat) (hi : dirtyInv s) :
    dirtyInv (s.consume n) :=
  fun h => hi h

theorem dirtyInv_read_loop :
    ∀ (n : Nat) (s : OffsetScsiDevice) (acc r : List Nat) (s' : OffsetScsiDevice),
      read_loop s n acc = some (r, s') → dirtyInv s → dirtyInv s' := by
  intro n
  induction n with
  | zero =>
    intro s acc r s' h hi
    injection h with h1
    injection h1 with _ hb
    rw [← hb]
    exact hi
  | succ m ih =>
    intro s acc r s' h hi
    rw [read_loop_succ] at h
    rcases hf : s.fill_buf with _ | ⟨buff, s1⟩
    · rw [hf] at h
      cases h
    · rw [hf] at h
      dsimp only at h
      have hi1 := dirtyInv_fill hf hi
      rcases buff with _ | ⟨b, rest⟩
      · injection h with h1
        injection h1 with _ hb
        rw [← hb]
        exact hi1
      · exact ih _ _ _ _ h (dirtyInv_consume 1 hi1)

theorem dirtyInv_write_loop :
    ∀ (bytes : List Nat) (s : OffsetScsiDevice) (w k : Nat) (s' : OffsetScsiDevice),
      write_loop s bytes w = some (k, s') → dirtyInv s → dirtyInv s' := by
  intro bytes
  induction bytes with
  | nil =>
    intro s w k s' h hi
    injection h with h1
    injection h1 with _ hb
    rw [← hb]
    exact hi
  | cons b rest ih =>
    intro s w k s' h hi
    rw [write_loop_cons] at h
    rcases hf : s.fill_buf with _ | ⟨buff, s1⟩
    · rw [hf] at h
      cases h
    · rw [hf] at h
      dsimp only at h
      have hi1 := dirtyInv_fill hf hi
      by_cases hb1 : s1.block_buffer = []
      · rw [if_pos hb1] at h
        injection h with h1
        injection h1 with _ hb
        rw [← hb]
        exact hi1
      · rw [if_neg hb1] at h
        by_cases hlt : s1.offset_from_cur_block < s1.block_buffer.length
        · rw [if_pos hlt] at h
          by_cases hv : s1.block_buffer.getD s1.offset_from_cur_block 0 ≠ b
          · rw [if_pos hv] at h
            refine ih _ _ _ _ h ?_
            intro _
            show s1.block_buffer.set s1.offset_from_cur_block b ≠ []
            apply List.ne_nil_of_length_pos
            rw [List.length_set]
            exact List.length_pos.mpr hb1
          · rw [if_neg hv] at h
            exact ih _ _ _ _ h (dirtyInv_consume 1 hi1)
        · rw [if_neg hlt] at h
          cases h

end OffsetScsiDevice

open OffsetScsiDevice in
/-- C9: the invariant "dirty implies the buffer is non-empty" holds at
construction and is preserved by every operation of the stream (buffer fill,
read, write, flush, seek, consume, disposal). -/
theorem c9_dirty_invariant :
    (∀ (d : ScsiBlockDevice) (ps : Nat), dirtyInv (OffsetScsiDevice.new d ps)) ∧
    (∀ s s', dirtyInv s → Step s s' → dirtyInv s') := by
  constructor
  · intro d ps h
    cases h
  · intro s s' hi hstep
    cases hstep with
    | fill sl s' h => exact dirtyInv_fill h hi
    | rd n r s' h => exact dirtyInv_read_loop n s [] r s' h hi
    | wr bytes k s' h => exact dirtyInv_write_loop bytes s 0 k s' h hi
    | fl => exact dirtyInv_flush s
    | sk pos r s' h =>
      obtain ⟨_, hb, _, _, hn, _, _⟩ := seek_frame h
      intro hh
      rw [hn] at hh
      rw [hb]
      exact hi hh
    | cns n => exact dirtyInv_consume n hi
    | dr => exact dirtyInv_flush s

namespace OffsetScsiDevice

theorem flushWriteShaped_read (bs a : Nat) : flushWriteShaped bs (DevEvent.read a) := by
  intro x d hx
  cases hx

theorem fill_buf_log {s : OffsetScsiDevice} {sl : List Nat} {s' : OffsetScsiDevice}
    (h : s.fill_buf = some (sl, s')) :
    s'.log = s.log
      ++ (if s.cur_block_number ≠ s.loaded_block_number ∧ s.needs_flush = true
          then [DevEvent.write s.buffered_block_raw_idx s.block_buffer] else [])
      ++ (if s.cur_block_number ≠ s.loaded_block_number ∨ s.block_buffer = []
          then [DevEvent.read s.cur_block_raw_idx] else []) := by
  obtain ⟨hs', _⟩ := fill_buf_dest h
  rw [hs', fill_step2_log, fill_step1_log, fill_step1_cur_block_raw_idx]
  by_cases hc : s.cur_block_number = s.loaded_block_number
  · have h1 : s.fill_step1.block_buffer = s.block_buffer := by rw [fill_step1_of_eq hc]
    rw [h1]
    simp [hc]
  · have h1 : s.fill_step1.block_buffer = [] := by rw [fill_step1_of_ne hc]
    rw [h1]
    simp [hc]

theorem shaped_fill {s : OffsetScsiDevice} {sl : List Nat} {s' : OffsetScsiDevice}
    (hwf : WF s) (h : s.fill_buf = some (sl, s')) :
    ∀ e ∈ s'.log, e ∈ s.log ∨ flushWriteShaped s.device.block_size e := by
  intro e he
  rw [fill_buf_log h] at he
  rcases List.mem_append.mp he with he1 | he2
  · rcases List.mem_append.mp he1 with he3 | he4
    · exact Or.inl he3
    · right
      split at he4
      · rename_i hcond
        have heq : e = DevEvent.write s.buffered_block_raw_idx s.block_buffer := by
          simpa using he4
        rw [heq]
        intro a d hx
        injection hx with ha hd
        constructor
        · rw [← hd]
          rcases hwf.buf_len with hb | hb
          · exact absurd hb (hwf.dirty_nonempty hcond.2)
          · exact hb
        · rw [← ha]
          show s.buffered_block_raw_idx % s.device.block_size = 0
          unfold buffered_block_raw_idx
          exact Nat.mul_mod_right _ _
      · simp at he4
  · right
    split at he2
    · have heq : e = DevEvent.read s.cur_block_raw_idx := by simpa using he2
      rw [heq]
      exact flushWriteShaped_read _ _
    · simp at he2

theorem WF_write_set {s1 : OffsetScsiDevice} (hwf : WF s1) (hb1 : s1.block_buffer ≠ [])
    (b : Nat) :
    WF { s1 with
      block_buffer := s1.block_buffer.set s1.offset_from_cur_block b
      needs_flush := true } := by
  constructor
  · exact hwf.bs_pos
  · exact hwf.blocks_len
  · right
    show (s1.block_buffer.set _ b).length = s1.device.block_size
    rw [List.length_set]
    rcases hwf.buf_len with h | h
    · exact absurd h hb1
    · exact h
  · intro _
    show s1.block_buffer.set _ b ≠ []
    apply List.ne_nil_of_length_pos
    rw [List.length_set]
    exact List.length_pos.mpr hb1
  · intro hcon
    exact Bool.noConfusion hcon

theorem shaped_read_loop :
    ∀ (n : Nat) (s : OffsetScsiDevice) (acc r : List Nat) (s' : OffsetScsiDevice),
      WF s → read_loop s n acc = some (r, s') →
      WF s' ∧ s'.device.block_size = s.device.block_size ∧
        ∀ e ∈ s'.log, e ∈ s.log ∨ flushWriteShaped s.device.block_size e := by
  intro n
  induction n with
  | zero =>
    intro s acc r s' hwf h
    injection h with h1
    injection h1 with _ hb
    rw [← hb]
    exact ⟨hwf, rfl, fun e he => Or.inl he⟩
  | succ m ih =>
    intro s acc r s' hwf h
    rw [read_loop_succ] at h
    rcases hf : s.fill_buf with _ | ⟨buff, s1⟩
    · rw [hf] at h
      cases h
    · rw [hf] at h
      dsimp only at h
      obtain ⟨hs1, _⟩ := fill_buf_dest hf
      have hwf1 : WF s1 := by rw [hs1]; exact s2_WF hwf
      have hbs1 : s1.device.block_size = s.device.block_size := by
        rw [hs1]
        exact s2_block_size s
      have hsh1 := shaped_fill hwf hf
      rcases buff with _ | ⟨b, rest⟩
      · injection h with h1
        injection h1 with _ hb
        rw [← hb]
        exact ⟨hwf1, hbs1, hsh1⟩
      · obtain ⟨hwf', hbs', hsh'⟩ := ih (s1.consume 1) (acc ++ [b]) r s' (WF_consume hwf1 1) h
        refine ⟨hwf', by rw [hbs']; exact hbs1, ?_⟩
        intro e he
        rcases hsh' e he with hmem | hsh
        · exact hsh1 e hmem
        · right
          rw [show (s1.consume 1).device.block_size = s.device.block_size from hbs1] at hsh
          exact hsh

theorem shaped_write_loop :
    ∀ (bytes : List Nat) (s : OffsetScsiDevice) (w k : Nat) (s' : OffsetScsiDevice),
      WF s → write_loop s bytes w = some (k, s') →
      WF s' ∧ s'.device.block_size = s.device.block_size ∧
        ∀ e ∈ s'.log, e ∈ s.log ∨ flushWriteShaped s.device.block_size e := by
  intro bytes
  induction bytes with
  | nil =>
    intro s w k s' hwf h
    injection h with h1
    injection h1 with _ hb
    rw [← hb]
    exact ⟨hwf, rfl, fun e he => Or.inl he⟩
  | cons b rest ih =>
    intro s w k s' hwf h
    rw [write_loop_cons] at h
    rcases hf : s.fill_buf with _ | ⟨buff, s1⟩
    · rw [hf] at h
      cases h
    · rw [hf] at h
      dsimp only at h
      obtain ⟨hs1, _⟩ := fill_buf_dest hf
      have hwf1 : WF s1 := by rw [hs1]; exact s2_WF hwf
      have hbs1 : s1.device.block_size = s.device.block_size := by
        rw [hs1]
        exact s2_block_size s
      have hsh1 := shaped_fill hwf hf
      by_cases hb1 : s1.block_buffer = []
      · rw [if_pos hb1] at h
        injection h with h1
        injection h1 with _ hb
        rw [← hb]
        exact ⟨hwf1, hbs1, hsh1⟩
      · rw [if_neg hb1] at h
        by_cases hlt : s1.offset_from_cur_block < s1.block_buffer.length
        · rw [if_pos hlt] at h
          have hnext : ∀ s2c : OffsetScsiDevice, WF s2c →
              s2c.device.block_size = s.device.block_size →
              s2c.log = s1.log →
              write_loop (s2c.consume 1) rest (w + 1) = some (k, s') →
              WF s' ∧ s'.device.block_size = s.device.block_size ∧
                ∀ e ∈ s'.log, e ∈ s.log ∨ flushWriteShaped s.device.block_size e := by
            intro s2c hwf2 hbs2 hlog2 hrec
            obtain ⟨hwf', hbs', hsh'⟩ :=
              ih (s2c.consume 1) (w + 1) k s' (WF_consume hwf2 1) hrec
            refine ⟨hwf', by rw [hbs']; exact hbs2, ?_⟩
            intro e he
            rcases hsh' e he with hmem | hsh
            · have hmem1 : e ∈ s1.log := by
                rw [← hlog2]
                exact hmem
              exact hsh1 e hmem1
            · right
              rw [show (s2c.consume 1).device.block_size = s.device.block_size
                from hbs2] at hsh
              exact hsh
          by_cases hv : s1.block_buffer.getD s1.offset_from_cur_block 0 ≠ b
          · rw [if_pos hv] at h
            exact hnext _ (WF_write_set hwf1 hb1 b) hbs1 rfl h
          · rw [if_neg hv] at h
            exact hnext s1 hwf1 hbs1 rfl h
        · rw [if_neg hlt] at h
          cases h

end OffsetScsiDevice

open OffsetScsiDevice in
/-- C4: `flush` is the identity (success, no device interaction) whenever the
dirty flag is clear; when it is set, `flush` issues exactly one device write
— the full (block-sized) buffer at the loaded block's start address — and
clears the dirty flag, leaving buffer, cursor and loaded block number
untouched.  And flush is the only source of device writes: a seek issues no
device command at all, a buffer fill adds a write command only when its
internal flush fires, and every device write command a read or write
operation ever adds is flush-shaped — a whole-block payload at a
block-aligned address. -/
theorem c4_flush_contract :
    (∀ s : OffsetScsiDevice, s.needs_flush = false → s.flush = s) ∧
    (∀ s : OffsetScsiDevice, WF s → s.needs_flush = true →
      s.flush.log = s.log ++
        [DevEvent.write (s.device.block_size * s.loaded_block_number) s.block_buffer] ∧
      s.block_buffer.length = s.device.block_size ∧
      s.flush.needs_flush = false ∧
      s.flush.block_buffer = s.block_buffer ∧
      s.flush.partition_idx = s.partition_idx ∧
      s.flush.loaded_block_number = s.loaded_block_number) ∧
    (∀ (s : OffsetScsiDevice) (pos : SeekFrom) (r : Nat) (s' : OffsetScsiDevice),
      s.seek pos = some (r, s') → s'.log = s.log) ∧
    (∀ (s : OffsetScsiDevice) (sl : List Nat) (s' : OffsetScsiDevice),
      WF s → s.fill_buf = some (sl, s') →
      s'.log = s.log
        ++ (if s.cur_block_number ≠ s.loaded_block_number ∧ s.needs_flush = true
            then [DevEvent.write (s.device.block_size * s.loaded_block_number)
              s.block_buffer] else [])
        ++ (if s.cur_block_number ≠ s.loaded_block_number ∨ s.block_buffer = []
            then [DevEvent.read s.cur_block_raw_idx] else [])) ∧
    (∀ (s : OffsetScsiDevice) (n : Nat) (r : List Nat) (s' : OffsetScsiDevice),
      WF s → s.read n = some (r, s') →
      ∀ e ∈ s'.log, e ∈ s.log ∨ flushWriteShaped s.device.block_size e) ∧
    (∀ (s : OffsetScsiDevice) (bytes : List Nat) (k : Nat) (s' : OffsetScsiDevice),
      WF s → s.write bytes = some (k, s') →
      ∀ e ∈ s'.log, e ∈ s.log ∨ flushWriteShaped s.device.block_size e) := by
  refine ⟨?_, ?_, ?_, ?_, ?_, ?_⟩
  · intro s h
    exact flush_clean h
  · intro s hwf h
    have hlen : s.block_buffer.length = s.device.block_size := by
      rcases hwf.buf_len with hb | hb
      · exact absurd hb (hwf.dirty_nonempty h)
      · exact hb
    refine ⟨?_, hlen, flush_needs_flush s, flush_block_buffer s, flush_partition_idx s,
      flush_loaded_block_number s⟩
    rw [flush_dirty h]
    rfl
  · intro s pos r s' h
    exact (seek_frame h).2.2.2.2.2.1
  · intro s sl s' _ h
    have := fill_buf_log h
    rw [show s.buffered_block_raw_idx
      = s.device.block_size * s.loaded_block_number from rfl] at this
    exact this
  · intro s n r s' hwf h
    exact (shaped_read_loop n s [] r s' hwf h).2.2
  · intro s bytes k s' hwf h
    exact (shaped_write_loop bytes s 0 k s' hwf h).2.2

theorem WF_state0 : WF state0 := by
  constructor
  · decide
  · intro n _
    simp [state0, dev0, OffsetScsiDevice.new]
  · exact Or.inl rfl
  · intro h
    exact absurd h (by decide)
  · intro _
    exact Or.inl rfl

theorem WF_stateC2 : WF stateC2 := by
  constructor
  · decide
  · intro n _
    simp [stateC2, dev0]
  · right
    decide
  · intro _
    decide
  · intro h
    exact absurd h (by decide)

theorem WF_stateC5w : WF stateC5w := by
  constructor
  · decide
  · intro n _
    simp [stateC5w, dev0]
  · right
    decide
  · intro h
    exact absurd h (by decide)
  · intro _
    right
    decide

theorem WF_stateC6w : WF stateC6w := by
  constructor
  · decide
  · intro n _
    simp [stateC6w, stateC6]
  · exact Or.inl rfl
  · intro h
    exact absurd h (by decide)
  · intro _
    exact Or.inl rfl

open OffsetScsiDevice in
/-- C3 (code bug in the source): at cursor 0, the relative seek
`SeekFrom::Current(-1)` evaluates `0usize - 1` — unchecked subtraction that
panics in debug builds and wraps around in release builds (modelled `none`) —
instead of failing with the explicit invalid-seek error the specification
mandates for a negative resulting cursor. -/
theorem c3_seek_underflow_panics : state0.seek (SeekFrom.current (-1)) = none := rfl

/-- C5 counterexample: from a state that is already dirty, writing a byte
equal to the buffered byte at the cursor (a no-op write, first conjunct)
indeed adds no device command and leaves the dirty flag set — but the
`flush()` that follows issues a device write, contradicting the claim that a
flush following such a write performs no device write. -/
theorem c5_counterexample :
    stateC5.block_buffer.getD stateC5.offset_from_cur_block 0 = 9 ∧
    (stateC5.write [9]).map
        (fun p => (p.1, p.2.needs_flush, p.2.log, p.2.flush.log)) =
      some (1, true, [], [DevEvent.write 0 [9, 9, 9, 9]]) := by
  decide

/-- C6 counterexample: on a one-block device with the cursor at byte 6 — past
the end of the medium, intra-block offset 2 — `read` does not return 0
successfully: the empty post-reload buffer is sliced at offset 2, which
panics (`none`), because `&buf[2..]` on an empty buffer is out of range. -/
theorem c6_counterexample :
    stateC6.device.nblocks ≤ stateC6.cur_block_number ∧
    stateC6.read 1 = none := by
  constructor
  · decide
  · rfl

/-- Witness for C1 at a concrete state: partition offset 1, value 99, with a
block-boundary-crossing interlude visiting partition offset 4 (block 3). -/
theorem c1_round_trip_witness :
    roundTrip state0 1 99 (Interlude.evict 4) = some [99] :=
  c1_round_trip state0 1 99 (Interlude.evict 4) WF_state0 (by decide)
    (by show (state0.partition_start + 4) / state0.device.block_size <
          state0.device.nblocks
        decide)

/-- Witness for C2 at a concrete dirty state crossing from block 2 into
block 3. -/
theorem c2_boundary_flush_witness :
    ∃ sl s', stateC2.fill_buf = some (sl, s') ∧
      s'.log = stateC2.log ++
        [DevEvent.write (stateC2.device.block_size * 2) stateC2.block_buffer,
          DevEvent.read (stateC2.device.block_size * (2 + 1))] ∧
      s'.loaded_block_number = 2 + 1 ∧
      s'.needs_flush = false ∧
      s'.block_buffer = stateC2.device.data (2 + 1) :=
  c2_boundary_flush stateC2 2 WF_stateC2 rfl rfl (by decide) (by decide)

/-- Witness for C4's clean-flush clause at a concrete clean state. -/
theorem c4_flush_contract_witness : state0.flush = state0 :=
  c4_flush_contract.1 state0 rfl

/-- Witness for C5 at a concrete clean state: writing the byte 2, equal to
the buffered byte at partition offset 1 of the resident block 2. -/
theorem c5_noop_write_witness :
    stateC5w.write [2] =
      some (([2] : List Nat).length,
        { stateC5w with partition_idx := stateC5w.partition_idx + ([2] : List Nat).length }) ∧
    (stateC5w.needs_flush = false →
      ({ stateC5w with
          partition_idx := stateC5w.partition_idx + ([2] : List Nat).length } :
            OffsetScsiDevice).flush =
        { stateC5w with
          partition_idx := stateC5w.partition_idx + ([2] : List Nat).length }) :=
  c5_noop_write stateC5w [2] WF_stateC5w (by decide) (by decide) (by decide) (by decide)

/-- Witness for C6 at a concrete state at the end-of-medium block boundary. -/
theorem c6_end_of_medium_witness :
    ∃ s', stateC6w.read 5 = some ([], s') ∧ WF s' ∧
      s'.partition_idx = stateC6w.partition_idx ∧
      s'.partition_start = stateC6w.partition_start ∧
      s'.device.nblocks ≤ s'.cur_block_number ∧
      s'.offset_from_cur_block = 0 ∧
      (s'.loaded_block_number = s'.cur_block_number → s'.block_buffer = []) :=
  c6_end_of_medium stateC6w 5 WF_stateC6w (by decide) (by decide) (by decide)

/-- Witness for C7 at a concrete dirty state. -/
theorem c7_drop_flush_witness :
    stateC2.drop.log = stateC2.log ++
      [DevEvent.write (stateC2.device.block_size * stateC2.loaded_block_number)
        stateC2.block_buffer] ∧
    stateC2.drop.needs_flush = false :=
  (c7_drop_flush stateC2).1 rfl

/-- Witness for C8 at a concrete absolute seek. -/
theorem c8_seek_frame_witness :
    ({ state0 with partition_idx := 5 } : OffsetScsiDevice).block_buffer =
        state0.block_buffer ∧
      ({ state0 with partition_idx := 5 } : OffsetScsiDevice).loaded_block_number =
        state0.loaded_block_number ∧
      ({ state0 with partition_idx := 5 } : OffsetScsiDevice).needs_flush =
        state0.needs_flush ∧
      ({ state0 with partition_idx := 5 } : OffsetScsiDevice).partition_start =
        state0.partition_start ∧
      ({ state0 with partition_idx := 5 } : OffsetScsiDevice).device = state0.device ∧
      ({ state0 with partition_idx := 5 } : OffsetScsiDevice).log = state0.log ∧
      ({ state0 with partition_idx := 5 } : OffsetScsiDevice).partition_idx = 5 :=
  c8_seek_frame state0 (SeekFrom.start 5) 5 { state0 with partition_idx := 5 } rfl

/-- Witness for C9: the invariant after a flush step from a concrete dirty
state. -/
theorem c9_dirty_invariant_witness : dirtyInv stateC2.flush :=
  c9_dirty_invariant.2 stateC2 stateC2.flush (fun _ => by decide) (Step.fl stateC2)

end NxFatdrive
